import Mathlib

/-!
Verification of the `machineid` fingerprint-generation library.

This file gives a shallow embedding of the library's core: the SHA-256
based hash/format pipeline (`hashIdentifiers`, `formatHash`), the
identifier aggregator (`appendIdentifierIfValid`,
`appendIdentifiersIfValid`), the caching orchestrator (`Provider.ID`),
the network-interface MAC filter (`collectMACAddresses`,
`isVirtualInterface`), and the platform collectors' parsing/validation
helpers for Linux (`isValidUUID`, `readFirstValidFromLocations`,
`linuxDiskSerials`), Windows (`parseWmicValue`, `parsePowerShellValue`,
`windowsSystemUUIDViaPowerShell`) and macOS (`parseStorageJSON`).

Go strings are modelled as Lean `String`s (a Go string is a UTF-8 byte
slice; byte-lexicographic order on UTF-8 agrees with code-point
lexicographic order, so `sort.Strings` agrees with sorting by Lean's
`String` order).  Go byte slices are modelled as `List Nat` with each
element below 256.  Fallible operations return `Except GoErr`.  The
`map[string]error` diagnostics field is modelled as an association list;
within one collection pass every component key is written at most once,
so append semantics coincide with map-insert semantics.
-/

/-! ### SHA-256 over byte lists (crypto/sha256 + encoding/hex)

A faithful executable SHA-256: 32-bit words are `Nat`s reduced modulo
2^32 at every arithmetic step. -/

def u32 (n : Nat) : Nat := n % 4294967296

def rotr32 (x n : Nat) : Nat := u32 ((x >>> n) ||| (x <<< (32 - n)))

def shaK : List Nat :=
  [1116352408, 1899447441, 3049323471, 3921009573, 961987163, 1508970993,
   2453635748, 2870763221, 3624381080, 310598401, 607225278, 1426881987,
   1925078388, 2162078206, 2614888103, 3248222580, 3835390401, 4022224774,
   264347078, 604807628, 770255983, 1249150122, 1555081692, 1996064986,
   2554220882, 2821834349, 2952996808, 3210313671, 3336571891, 3584528711,
   113926993, 338241895, 666307205, 773529912, 1294757372, 1396182291,
   1695183700, 1986661051, 2177026350, 2456956037, 2730485921, 2820302411,
   3259730800, 3345764771, 3516065817, 3600352804, 4094571909, 275423344,
   430227734, 506948616, 659060556, 883997877, 958139571, 1322822218,
   1537002063, 1747873779, 1955562222, 2024104815, 2227730452, 2361852424,
   2428436474, 2756734187, 3204031479, 3329325298]

structure Sha8 where
  a : Nat
  b : Nat
  c : Nat
  d : Nat
  e : Nat
  f : Nat
  g : Nat
  h : Nat
deriving DecidableEq

def shaInit : Sha8 :=
  ⟨1779033703, 3144134277, 1013904242, 2773480762,
   1359893119, 2600822924, 528734635, 1541459225⟩

def bigSigma0 (x : Nat) : Nat := rotr32 x 2 ^^^ rotr32 x 13 ^^^ rotr32 x 22

def bigSigma1 (x : Nat) : Nat := rotr32 x 6 ^^^ rotr32 x 11 ^^^ rotr32 x 25

def smallSigma0 (x : Nat) : Nat := rotr32 x 7 ^^^ rotr32 x 18 ^^^ (x >>> 3)

def smallSigma1 (x : Nat) : Nat := rotr32 x 17 ^^^ rotr32 x 19 ^^^ (x >>> 10)

def chFn (x y z : Nat) : Nat := (x &&& y) ^^^ ((x ^^^ 0xffffffff) &&& z)

def majFn (x y z : Nat) : Nat := (x &&& y) ^^^ (x &&& z) ^^^ (y &&& z)

def schedule (w16 : List Nat) : List Nat :=
  (List.range 48).foldl (fun w i =>
    w ++ [u32 (smallSigma1 (w.getD (i+14) 0) + w.getD (i+9) 0 + smallSigma0 (w.getD (i+1) 0) + w.getD i 0)]) w16

def compressStep (w : List Nat) (st : Sha8) (i : Nat) : Sha8 :=
  let t1 := u32 (st.h + bigSigma1 st.e + chFn st.e st.f st.g + shaK.getD i 0 + w.getD i 0)
  let t2 := u32 (bigSigma0 st.a + majFn st.a st.b st.c)
  ⟨u32 (t1 + t2), st.a, st.b, st.c, u32 (st.d + t1), st.e, st.f, st.g⟩

def compressBlock (st : Sha8) (block : List Nat) : Sha8 :=
  let w16 := (List.range 16).map (fun j =>
    block.getD (4*j) 0 * 16777216 + block.getD (4*j+1) 0 * 65536 +
    block.getD (4*j+2) 0 * 256 + block.getD (4*j+3) 0)
  let w := schedule w16
  let f := (List.range 64).foldl (compressStep w) st
  ⟨u32 (st.a + f.a), u32 (st.b + f.b), u32 (st.c + f.c), u32 (st.d + f.d),
   u32 (st.e + f.e), u32 (st.f + f.f), u32 (st.g + f.g), u32 (st.h + f.h)⟩

def padBytes (msg : List Nat) : List Nat :=
  let L := msg.length
  let rem := (L + 1) % 64
  let zeros := if rem ≤ 56 then 56 - rem else 120 - rem
  let bl := 8 * L
  msg ++ [128] ++ List.replicate zeros 0 ++
    [bl / 72057594037927936 % 256, bl / 281474976710656 % 256, bl / 1099511627776 % 256,
     bl / 4294967296 % 256, bl / 16777216 % 256, bl / 65536 % 256, bl / 256 % 256, bl % 256]

def chunksAux : Nat → List Nat → List (List Nat)
  | 0, _ => []
  | Nat.succ fuel, l => if l.isEmpty then [] else l.take 64 :: chunksAux fuel (l.drop 64)

def chunks64 (l : List Nat) : List (List Nat) := chunksAux l.length l

def sha256Words (msg : List Nat) : Sha8 :=
  (chunks64 (padBytes msg)).foldl compressBlock shaInit

def utf8EncodeChar (c : Char) : List Nat :=
  let n := c.toNat
  if n < 128 then [n]
  else if n < 2048 then [192 + n / 64, 128 + n % 64]
  else if n < 65536 then [224 + n / 4096, 128 + n / 64 % 64, 128 + n % 64]
  else [240 + n / 262144, 128 + n / 4096 % 64, 128 + n / 64 % 64, 128 + n % 64]

def utf8Bytes (s : String) : List Nat :=
  s.data.foldr (fun c acc => utf8EncodeChar c ++ acc) []

def hexDigit (n : Nat) : Char :=
  if n < 10 then Char.ofNat (48 + n)
  else if n < 16 then Char.ofNat (87 + n)
  else '0'

def wordHex (w : Nat) : List Char :=
  [hexDigit (w / 268435456 % 16), hexDigit (w / 16777216 % 16), hexDigit (w / 1048576 % 16),
   hexDigit (w / 65536 % 16), hexDigit (w / 4096 % 16), hexDigit (w / 256 % 16),
   hexDigit (w / 16 % 16), hexDigit (w % 16)]

/-- `hex.EncodeToString(sha256.Sum256([]byte(s))[:])`: the lowercase
hexadecimal encoding of the SHA-256 digest of the UTF-8 bytes of `s`. -/
def sha256hex (s : String) : String :=
  let d := sha256Words (utf8Bytes s)
  ⟨wordHex d.a ++ wordHex d.b ++ wordHex d.c ++ wordHex d.d ++
   wordHex d.e ++ wordHex d.f ++ wordHex d.g ++ wordHex d.h⟩

/-! ### String helpers shared by the embedding -/

/-- Go slice `s[:n]` on a string (byte slicing; all sliced strings here
are ASCII hex, where bytes and characters coincide). -/
def strTake (s : String) (n : Nat) : String := ⟨s.data.take n⟩

/-- `strings.TrimSpace` restricted to ASCII whitespace (the inputs fed
to it by this library are ASCII command output lines). -/
def isGoSpace (c : Char) : Bool :=
  c = ' ' || c = '\t' || c = '\n' || c = '\x0b' || c = '\x0c' || c = '\r'

def trimSpace (s : String) : String :=
  ⟨((s.data.dropWhile isGoSpace).reverse.dropWhile isGoSpace).reverse⟩

/-- `strings.Split(s, "\n")`. -/
def splitLinesAux : List Char → List Char → List String
  | [], acc => [⟨acc.reverse⟩]
  | c :: rest, acc =>
      if c = '\n' then ⟨acc.reverse⟩ :: splitLinesAux rest []
      else splitLinesAux rest (c :: acc)

def splitLines (s : String) : List String := splitLinesAux s.data []

/-- `strings.HasPrefix`. -/
def goHasPrefixStr (s pre : String) : Bool := pre.data.isPrefixOf s.data

/-- `strings.TrimPrefix`. -/
def goTrimPrefixStr (s pre : String) : String :=
  if goHasPrefixStr s pre then ⟨s.data.drop pre.data.length⟩ else s

/-- `strings.ToLower` restricted to ASCII (the interface-name prefixes
compared against are ASCII). -/
def strToLower (s : String) : String := ⟨s.data.map Char.toLower⟩

/-! ### Error taxonomy (errors.go) -/

/-- The library's sentinel errors and wrapping error types
(`ErrNotFound`, `ErrEmptyValue`, `ErrNoValues`, `ErrOEMPlaceholder`,
`ErrAllMethodsFailed`, `ErrNoIdentifiers`, `ParseError`,
`ComponentError`, `CommandError`). -/
inductive GoErr where
  | notFound : GoErr
  | emptyValue : GoErr
  | noValues : GoErr
  | oemPlaceholder : GoErr
  | allMethodsFailed : GoErr
  | noIdentifiers : GoErr
  | parseError (source : String) (inner : GoErr) : GoErr
  | componentError (component : String) (inner : GoErr) : GoErr
  | commandError (command : String) : GoErr
deriving DecidableEq

/-- Modelled from the spec: the `biosFirmwareMessage` constant's
declaration is not under src/ (only its uses are); per the
`ErrOEMPlaceholder` documentation it is the BIOS/UEFI OEM placeholder
"To be filled by O.E.M.". -/
def biosFirmwareMessage : String := "To be filled by O.E.M."

/-! ### FormatMode and the hash pipeline (machineid.go) -/

/-- Output format of the machine ID; `format64` is the default
(declaration order follows the Go `iota` block). -/
inductive FormatMode where
  | format64 : FormatMode
  | format32 : FormatMode
  | format128 : FormatMode
  | format256 : FormatMode
deriving DecidableEq

def ComponentCPU : String := "cpu"

def ComponentMotherboard : String := "motherboard"

def ComponentSystemUUID : String := "uuid"

def ComponentMAC : String := "mac"

def ComponentDisk : String := "disk"

def ComponentMachineID : String := "machine-id"

/-- `formatHash` formats a 64-character SHA-256 hash according to the
mode; a hash that is not exactly 64 characters is returned unchanged. -/
def formatHash (hash : String) (mode : FormatMode) : String :=
  if hash.length = 64 then
    match mode with
    | .format32 => strTake hash 32
    | .format64 => hash
    | .format128 => hash ++ sha256hex hash
    | .format256 =>
        let hash2 := sha256hex hash
        let hash3 := sha256hex hash2
        let hash4 := sha256hex hash3
        hash ++ hash2 ++ hash3 ++ hash4
  else hash

/-- `sort.Strings`: the ascending lexicographic sort of a list of
strings (any correct sort produces this unique sorted permutation). -/
def sortStrings (l : List String) : List String := List.insertionSort (· ≤ ·) l

/-- The salted, joined string built inside `hashIdentifiers` before
hashing: identifiers are sorted, joined with "|", and a non-empty salt
is prepended as `salt + "|"`. -/
def saltedCombined (identifiers : List String) (salt : String) : String :=
  let combined := String.intercalate "|" (sortStrings identifiers)
  if salt ≠ "" then salt ++ "|" ++ combined else combined

/-- `hashIdentifiers` sorts, joins, salts, hashes with SHA-256 and
formats the result according to the mode. -/
def hashIdentifiers (identifiers : List String) (salt : String) (mode : FormatMode) : String :=
  formatHash (sha256hex (saltedCombined identifiers salt)) mode

/-! ### Diagnostics and the identifier aggregator (machineid.go) -/

/-- `DiagnosticInfo`: per-component errors (a `map[string]error`,
modelled as an association list; each component key is written at most
once per pass) and the component names collected, in invocation order. -/
structure DiagnosticInfo where
  errors : List (String × GoErr)
  collected : List String
deriving DecidableEq

def DiagnosticInfo.addError (d : DiagnosticInfo) (component : String) (e : GoErr) : DiagnosticInfo :=
  { d with errors := d.errors ++ [(component, e)] }

def DiagnosticInfo.addCollected (d : DiagnosticInfo) (component : String) : DiagnosticInfo :=
  { d with collected := d.collected ++ [component] }

def emptyDiag : DiagnosticInfo := ⟨[], []⟩

/-- `appendIdentifierIfValid` (single-value aggregator): the producer's
one invocation is modelled by its `Except` outcome.  On error the wrapped
`ComponentError` is recorded and the list is untouched; an empty value
records `ErrEmptyValue`; otherwise `prefix+value` is appended and the
component recorded as collected. -/
def appendIdentifierIfValid (identifiers : List String) (getValue : Except GoErr String)
    (pfx : String) (diag : DiagnosticInfo) (component : String) :
    List String × DiagnosticInfo :=
  match getValue with
  | .error e => (identifiers, diag.addError component (.componentError component e))
  | .ok value =>
      if value = "" then
        (identifiers, diag.addError component (.componentError component .emptyValue))
      else
        (identifiers ++ [pfx ++ value], diag.addCollected component)

/-- `appendIdentifiersIfValid` (multi-value aggregator): an error or a
zero-length list records a `ComponentError` (wrapping `ErrNoValues` in
the latter case) and leaves the list untouched; otherwise every value is
prefixed and appended in the order produced. -/
def appendIdentifiersIfValid (identifiers : List String) (getValues : Except GoErr (List String))
    (pfx : String) (diag : DiagnosticInfo) (component : String) :
    List String × DiagnosticInfo :=
  match getValues with
  | .error e => (identifiers, diag.addError component (.componentError component e))
  | .ok values =>
      if values = [] then
        (identifiers, diag.addError component (.componentError component .noValues))
      else
        (identifiers ++ values.map (fun value => pfx ++ value), diag.addCollected component)

/-! ### Provider orchestrator (machineid.go `Provider.ID`)

The platform collector's outcome for one generation pass — determined by
the fixed underlying command/file responses — is a `CollectOutcome`:
the error returned by `collectIdentifiers`, the identifier list, and the
diagnostics it populated.  The provider's configuration flags and the
command executor live behind this abstraction. -/

structure CollectOutcome where
  err : Option GoErr
  identifiers : List String
  diag : DiagnosticInfo
deriving DecidableEq

structure Provider where
  salt : String
  formatMode : FormatMode
  cachedID : String
  diagnostics : Option DiagnosticInfo
deriving DecidableEq

/-- The result of one `Provider.ID` call: the returned value or error,
the provider state after the call, and whether the call performed
collection work (invoked `collectIdentifiers`, and with it the command
executor). -/
instance : DecidableEq (Except GoErr String)
  | .error a, .error b =>
      if h : a = b then .isTrue (by rw [h]) else .isFalse (by intro hh; cases hh; exact h rfl)
  | .error _, .ok _ => .isFalse (by intro h; cases h)
  | .ok _, .error _ => .isFalse (by intro h; cases h)
  | .ok a, .ok b =>
      if h : a = b then .isTrue (by rw [h]) else .isFalse (by intro hh; cases hh; exact h rfl)

structure IDResult where
  result : Except GoErr String
  state : Provider
  collectorInvoked : Bool
deriving DecidableEq

/-- `Provider.ID`: returns the cached ID when one is present; otherwise
runs collection, fails with `ErrNoIdentifiers` (leaving the cache slot
empty) when zero identifiers were produced, and otherwise caches and
returns `hashIdentifiers` of the collected list. -/
def Provider.ID (p : Provider) (env : CollectOutcome) : IDResult :=
  if p.cachedID ≠ "" then
    ⟨.ok p.cachedID, p, false⟩
  else
    match env.err with
    | some e => ⟨.error e, p, true⟩
    | none =>
        if env.identifiers = [] then
          ⟨.error .noIdentifiers, { p with diagnostics := some env.diag }, true⟩
        else
          let id := hashIdentifiers env.identifiers p.salt p.formatMode
          ⟨.ok id, { p with cachedID := id, diagnostics := some env.diag }, true⟩

/-! ### Network interface filtering (network.go) -/

/-- `MACFilter` modes; the constants `MACFilterPhysical`,
`MACFilterAll`, `MACFilterVirtual` are referenced throughout src/ (the
type declaration itself is not under src/; the three modes are those of
the spec). -/
inductive MACFilter where
  | physical : MACFilter
  | all : MACFilter
  | virtual : MACFilter
deriving DecidableEq

/-- One entry of the `net.Interfaces()` snapshot: the name, the
formatted hardware address (`""` when the interface has none), and the
loopback/up flag bits. -/
structure NetInterface where
  name : String
  hardwareAddr : String
  flagLoopback : Bool
  flagUp : Bool
deriving DecidableEq

def virtualInterfacePrefixes : List String :=
  ["utun", "tun", "tap", "ipsec", "ppp",
   "docker", "br-", "veth",
   "virbr", "vnet", "vmnet",
   "bridge",
   "lo",
   "wg",
   "vnic", "vboxnet"]

/-- `isVirtualInterface`: the lowercased name matches one of the known
virtual/VPN/bridge name patterns. -/
def isVirtualInterface (name : String) : Bool :=
  virtualInterfacePrefixes.any (fun p => goHasPrefixStr (strToLower name) p)

/-- The per-interface decision of the `collectMACAddresses` loop:
loopback, address-less and down interfaces are always excluded, then the
filter mode decides based on `isVirtualInterface`. -/
def macEntry (filter : MACFilter) (i : NetInterface) : Option String :=
  if i.flagLoopback || i.hardwareAddr == "" then none
  else if !i.flagUp then none
  else
    match filter with
    | .physical => if isVirtualInterface i.name then none else some i.hardwareAddr
    | .virtual => if !isVirtualInterface i.name then none else some i.hardwareAddr
    | .all => some i.hardwareAddr

/-- `collectMACAddresses` over a fixed interface snapshot. -/
def collectMACAddresses (filter : MACFilter) (interfaces : List NetInterface) : List String :=
  interfaces.filterMap (macEntry filter)

/-! ### Linux collector (linux.go) -/

/-- `isValidUUID`: not empty and not the all-zero UUID. -/
def isValidUUID (uuid : String) : Bool :=
  uuid != "" && uuid != "00000000-0000-0000-0000-000000000000"

/-- `isValidSerial`: not empty and not the OEM placeholder. -/
def isValidSerial (serial : String) : Bool :=
  serial != "" && serial != biosFirmwareMessage

/-- `isNonEmpty`. -/
def isNonEmpty (value : String) : Bool := value != ""

/-- `readFirstValidFromLocations`: each candidate location is modelled
by its read outcome (`none` = read error, `some data` = file content);
the first trimmed content passing the validator wins, otherwise
`ErrNotFound`. -/
def readFirstValidFromLocations (files : List (Option String)) (validator : String → Bool) :
    Except GoErr String :=
  match files with
  | [] => .error .notFound
  | none :: rest => readFirstValidFromLocations rest validator
  | some data :: rest =>
      let value := trimSpace data
      if validator value then .ok value
      else readFirstValidFromLocations rest validator

/-- `linuxSystemUUID`: first valid DMI `product_uuid` content. -/
def linuxSystemUUID (files : List (Option String)) : Except GoErr String :=
  readFirstValidFromLocations files isValidUUID

/-- The body of the `linuxDiskSerials` merge loops: append each serial
of `l` not seen before (the Go `seen` map holds exactly the members of
the accumulated list). -/
def addUnique (serials : List String) (l : List String) : List String :=
  match l with
  | [] => serials
  | s :: rest =>
      if s ∈ serials then addUnique serials rest
      else addUnique (serials ++ [s]) rest

/-- `linuxDiskSerials`: merges the lsblk-sourced and /sys/block-sourced
serial lists (each modelled by its outcome), deduplicating across and
within sources; a failed source contributes nothing and the function
itself never fails. -/
def linuxDiskSerials (lsblkRes sysRes : Except GoErr (List String)) : List String :=
  let serials := match lsblkRes with
    | .ok l => addUnique [] l
    | .error _ => []
  match sysRes with
  | .ok l => addUnique serials l
  | .error _ => serials

/-- The provider's enabled-signal flags (field order follows the Go
struct). -/
structure ProviderConfig where
  includeCPU : Bool
  includeMotherboard : Bool
  includeSystemUUID : Bool
  includeMAC : Bool
  includeDisk : Bool
deriving DecidableEq

/-- The Linux producers' outcomes for one pass, fixed by the underlying
command/file responses. -/
structure LinuxEnv where
  cpu : Except GoErr String
  systemUUID : Except GoErr String
  machineId : Except GoErr String
  motherboard : Except GoErr String
  mac : Except GoErr (List String)
  disk : Except GoErr (List String)

/-- Linux `collectIdentifiers`: for each enabled flag the matching
producer outcome is aggregated, in source order — CPU; then (for the
single SystemUUID flag) the DMI product UUID under "uuid:" and the
systemd machine-id under "machine:"; then motherboard, MAC, disk. -/
def linuxCollectIdentifiers (cfg : ProviderConfig) (env : LinuxEnv) :
    List String × DiagnosticInfo :=
  let acc : List String × DiagnosticInfo := ([], emptyDiag)
  let acc := if cfg.includeCPU then
      appendIdentifierIfValid acc.1 env.cpu "cpu:" acc.2 ComponentCPU
    else acc
  let acc := if cfg.includeSystemUUID then
      let acc2 := appendIdentifierIfValid acc.1 env.systemUUID "uuid:" acc.2 ComponentSystemUUID
      appendIdentifierIfValid acc2.1 env.machineId "machine:" acc2.2 ComponentMachineID
    else acc
  let acc := if cfg.includeMotherboard then
      appendIdentifierIfValid acc.1 env.motherboard "mb:" acc.2 ComponentMotherboard
    else acc
  let acc := if cfg.includeMAC then
      appendIdentifiersIfValid acc.1 env.mac "mac:" acc.2 ComponentMAC
    else acc
  let acc := if cfg.includeDisk then
      appendIdentifiersIfValid acc.1 env.disk "disk:" acc.2 ComponentDisk
    else acc
  acc

/-! ### Windows collector parsing (windows.go) -/

/-- The line scan of `parseWmicValue`. -/
def parseWmicLines (lines : List String) (pfx : String) : Except GoErr String :=
  match lines with
  | [] => .error (.parseError "wmic output" .notFound)
  | line :: rest =>
      let t := trimSpace line
      if goHasPrefixStr t pfx then
        let value := trimSpace (goTrimPrefixStr t pfx)
        if value = "" || value = biosFirmwareMessage then parseWmicLines rest pfx
        else .ok value
      else parseWmicLines rest pfx

/-- `parseWmicValue`: first trimmed, non-empty, non-placeholder value
following the given key on some line of the wmic output. -/
def parseWmicValue (output pfx : String) : Except GoErr String :=
  parseWmicLines (splitLines output) pfx

/-- `parsePowerShellValue`: the trimmed output, if non-empty. -/
def parsePowerShellValue (output : String) : Except GoErr String :=
  let value := trimSpace output
  if value = "" then .error (.parseError "PowerShell output" .emptyValue)
  else .ok value

/-- `windowsSystemUUIDViaPowerShell`: the PowerShell command's outcome
fed through `parsePowerShellValue`. -/
def windowsSystemUUIDViaPowerShell (psRes : Except GoErr String) : Except GoErr String :=
  match psRes with
  | .error e => .error e
  | .ok output => parsePowerShellValue output

/-- `windowsSystemUUID`: wmic first, PowerShell on command or parse
failure. -/
def windowsSystemUUID (wmicRes psRes : Except GoErr String) : Except GoErr String :=
  match wmicRes with
  | .ok output =>
      match parseWmicValue output "UUID=" with
      | .ok value => .ok value
      | .error _ => windowsSystemUUIDViaPowerShell psRes
  | .error _ => windowsSystemUUIDViaPowerShell psRes

/-! ### macOS storage parsing (darwin.go) -/

/-- The fields of one `SPStorageDataType` entry's physical drive used by
`parseStorageJSON`. -/
structure SpStorageEntry where
  deviceName : String
  isInternal : String
deriving DecidableEq

/-- The filter/dedup loop of `parseStorageJSON` (the JSON has already
been decoded into entries): internal disks' non-empty device names,
first occurrence only. -/
def storageNamesAux (acc : List String) (entries : List SpStorageEntry) : List String :=
  match entries with
  | [] => acc
  | e :: rest =>
      if e.deviceName = "" then storageNamesAux acc rest
      else if e.isInternal ≠ "yes" then storageNamesAux acc rest
      else if e.deviceName ∈ acc then storageNamesAux acc rest
      else storageNamesAux (acc ++ [e.deviceName]) rest

def storageDiskNames (entries : List SpStorageEntry) : List String :=
  storageNamesAux [] entries

/-- `parseStorageJSON` after JSON decoding: the deduplicated internal
disk names, or `ErrNotFound` when none remain. -/
def parseStorageJSON (entries : List SpStorageEntry) : Except GoErr (List String) :=
  let diskNames := storageDiskNames entries
  if diskNames = [] then .error (.parseError "system_profiler storage output" .notFound)
  else .ok diskNames

/-! ### Auxiliary definitions for the salt-sensitivity analysis -/

/-- The all-`'a'` salt of length `n + 1` (an infinite family of distinct
non-empty salts). -/
def saltN (n : Nat) : String := ⟨'a' :: List.replicate n 'a'⟩

/-- Injective bounded encoding of an optional character (every Unicode
scalar value is below 1114112). -/
def encodeOptChar (oc : Option Char) : Fin 1114113 :=
  match oc with
  | none => ⟨0, by decide⟩
  | some c =>
      ⟨c.toNat + 1, by
        have h := c.valid
        rcases h with h | ⟨_, h2⟩
        · exact Nat.succ_lt_succ (Nat.lt_trans h (by decide))
        · exact Nat.succ_lt_succ h2⟩

/-- The list of serials a disk-serial source contributed (a failed
source contributes nothing). -/
def sourceValues (r : Except GoErr (List String)) : List String :=
  match r with
  | .ok l => l
  | .error _ => []

/-- The configuration enabling only the SystemUUID signal. -/
def uuidOnlyConfig : ProviderConfig := ⟨false, false, true, false, false⟩

/-- The all-zero UUID literal rejected by `isValidUUID`. -/
def zeroUUID : String := "00000000-0000-0000-0000-000000000000"

/-! ### Helper lemmas -/

theorem sha256hex_length (s : String) : (sha256hex s).length = 64 := by
  simp [sha256hex, wordHex, String.length]

theorem string_length_mk (l : List Char) : (String.mk l).length = l.length := rfl

theorem string_data_mk (l : List Char) : (String.mk l).data = l := rfl

theorem strTake_data (s : String) (n : Nat) : (strTake s n).data = s.data.take n := rfl

theorem formatHash_of_len64 (hash : String) (mode : FormatMode) (h : hash.length = 64) :
    formatHash hash mode =
      match mode with
      | .format32 => strTake hash 32
      | .format64 => hash
      | .format128 => hash ++ sha256hex hash
      | .format256 =>
          hash ++ sha256hex hash ++ sha256hex (sha256hex hash) ++
            sha256hex (sha256hex (sha256hex hash))
  := by
  simp only [formatHash, if_pos h]

theorem hashIdentifiers_length (identifiers : List String) (salt : String) (mode : FormatMode) :
    (hashIdentifiers identifiers salt mode).length =
      match mode with
      | .format32 => 32
      | .format64 => 64
      | .format128 => 128
      | .format256 => 256 := by
  have hb := sha256hex_length (saltedCombined identifiers salt)
  unfold hashIdentifiers
  rw [formatHash_of_len64 _ mode hb]
  cases mode with
  | format32 =>
      have hd : (sha256hex (saltedCombined identifiers salt)).data.length = 64 := hb
      show ((sha256hex (saltedCombined identifiers salt)).data.take 32).length = 32
      simp [List.length_take, hd]
  | format64 => exact hb
  | format128 =>
      show (_ ++ _ : String).length = 128
      rw [String.length_append, hb, sha256hex_length]
  | format256 =>
      show (_ ++ _ ++ _ ++ _ : String).length = 256
      rw [String.length_append, String.length_append, String.length_append,
        hb, sha256hex_length, sha256hex_length, sha256hex_length]

theorem hashIdentifiers_ne_empty (identifiers : List String) (salt : String) (mode : FormatMode) :
    hashIdentifiers identifiers salt mode ≠ "" := by
  intro h
  have hl := hashIdentifiers_length identifiers salt mode
  rw [h] at hl
  cases mode <;> simp at hl

theorem sortStrings_eq_of_perm {l l' : List String} (h : l.Perm l') :
    sortStrings l = sortStrings l' := by
  have hs1 : (List.insertionSort (· ≤ ·) l).Sorted (· ≤ · : String → String → Prop) :=
    List.sorted_insertionSort _ l
  have hs2 : (List.insertionSort (· ≤ ·) l').Sorted (· ≤ · : String → String → Prop) :=
    List.sorted_insertionSort _ l'
  exact List.eq_of_perm_of_sorted
    (((List.perm_insertionSort _ l).trans h).trans (List.perm_insertionSort _ l').symm) hs1 hs2

/-- C2: for every finite set of collected identifiers, every salt, and
every format mode, `hashIdentifiers` produces the same fingerprint for
any permutation of the identifier list as for the original order. -/
theorem hashIdentifiers_order_independent (l l' : List String) (salt : String)
    (mode : FormatMode) (h : l.Perm l') :
    hashIdentifiers l salt mode = hashIdentifiers l' salt mode := by
  unfold hashIdentifiers saltedCombined
  rw [sortStrings_eq_of_perm h]

/-- Witness for C2 at a concrete permutation pair. -/
theorem hashIdentifiers_order_independent_witness :
    hashIdentifiers ["cpu:intel", "uuid:123"] "" .format64 =
      hashIdentifiers ["uuid:123", "cpu:intel"] "" .format64 :=
  hashIdentifiers_order_independent ["cpu:intel", "uuid:123"] ["uuid:123", "cpu:intel"] ""
    .format64 (by decide)

/-- C3: for identical identifier lists and salt, the Format32
fingerprint is the first 32 characters of the Format64 fingerprint, and
the Format64 fingerprint is the first 64 characters of the Format128
fingerprint. -/
theorem formatHash_containment (identifiers : List String) (salt : String) :
    hashIdentifiers identifiers salt .format32 =
      strTake (hashIdentifiers identifiers salt .format64) 32 ∧
    hashIdentifiers identifiers salt .format64 =
      strTake (hashIdentifiers identifiers salt .format128) 64 := by
  have hb := sha256hex_length (saltedCombined identifiers salt)
  have hd : (sha256hex (saltedCombined identifiers salt)).data.length = 64 := hb
  unfold hashIdentifiers
  rw [formatHash_of_len64 _ _ hb, formatHash_of_len64 _ _ hb, formatHash_of_len64 _ _ hb]
  constructor
  · rfl
  · show sha256hex (saltedCombined identifiers salt) =
      strTake (sha256hex (saltedCombined identifiers salt) ++ _) 64
    apply String.ext
    rw [strTake_data, String.data_append, ← hd, List.take_left]

/-- C6: for a fixed interface snapshot, the Physical-filtered MAC count
plus the Virtual-filtered MAC count equals the All-filtered MAC count:
`isVirtualInterface` classification is an exhaustive binary partition of
the interfaces surviving the loopback/address/up checks. -/
theorem collectMACAddresses_partition (interfaces : List NetInterface) :
    (collectMACAddresses .physical interfaces).length +
      (collectMACAddresses .virtual interfaces).length =
      (collectMACAddresses .all interfaces).length := by
  induction interfaces with
  | nil => rfl
  | cons i rest ih =>
      simp only [collectMACAddresses, List.filterMap_cons] at ih ⊢
      cases hb : (i.flagLoopback || (i.hardwareAddr == "")) <;>
        cases hup : i.flagUp <;>
          cases hv : isVirtualInterface i.name <;>
            simp [macEntry, hb, hup, hv, ih] <;> omega

/-- C1: with a fixed collection outcome, a first successful `ID` call
returns and caches the fingerprint; any later `ID` call — whatever the
collector would now produce — returns the byte-identical cached string,
leaves the state unchanged, and performs no collection work. -/
theorem provider_id_idempotent (p : Provider) (env1 env2 : CollectOutcome)
    (hc : p.cachedID = "") (he : env1.err = none) (hi : env1.identifiers ≠ []) :
    (p.ID env1).result = .ok (hashIdentifiers env1.identifiers p.salt p.formatMode) ∧
    ((p.ID env1).state.ID env2).result = (p.ID env1).result ∧
    ((p.ID env1).state.ID env2).state = (p.ID env1).state ∧
    ((p.ID env1).state.ID env2).collectorInvoked = false := by
  have hid := hashIdentifiers_ne_empty env1.identifiers p.salt p.formatMode
  simp [Provider.ID, hc, he, hi, hid]

/-- Witness for C1: a concrete provider and collection outcome. -/
theorem provider_id_idempotent_witness :
    ((⟨"", .format64, "", none⟩ : Provider).ID ⟨none, ["cpu:x"], emptyDiag⟩).result =
      .ok (hashIdentifiers ["cpu:x"] "" .format64) ∧
    ((((⟨"", .format64, "", none⟩ : Provider).ID ⟨none, ["cpu:x"], emptyDiag⟩).state.ID
        ⟨none, ["other"], emptyDiag⟩).result =
      ((⟨"", .format64, "", none⟩ : Provider).ID ⟨none, ["cpu:x"], emptyDiag⟩).result) ∧
    ((((⟨"", .format64, "", none⟩ : Provider).ID ⟨none, ["cpu:x"], emptyDiag⟩).state.ID
        ⟨none, ["other"], emptyDiag⟩).state =
      ((⟨"", .format64, "", none⟩ : Provider).ID ⟨none, ["cpu:x"], emptyDiag⟩).state) ∧
    ((((⟨"", .format64, "", none⟩ : Provider).ID ⟨none, ["cpu:x"], emptyDiag⟩).state.ID
        ⟨none, ["other"], emptyDiag⟩).collectorInvoked = false) :=
  provider_id_idempotent ⟨"", .format64, "", none⟩ ⟨none, ["cpu:x"], emptyDiag⟩
    ⟨none, ["other"], emptyDiag⟩ rfl rfl (by simp)

/-- C4: a generation pass that collects zero identifiers returns
`ErrNoIdentifiers` and leaves the cached-fingerprint slot empty, so a
subsequent call with different underlying results performs collection
and succeeds. -/
theorem provider_id_no_identifiers_non_caching (p : Provider) (env1 env2 : CollectOutcome)
    (hc : p.cachedID = "") (he1 : env1.err = none) (hi1 : env1.identifiers = [])
    (he2 : env2.err = none) (hi2 : env2.identifiers ≠ []) :
    (p.ID env1).result = .error .noIdentifiers ∧
    (p.ID env1).state.cachedID = "" ∧
    (p.ID env1).state.diagnostics = some env1.diag ∧
    ((p.ID env1).state.ID env2).collectorInvoked = true ∧
    ((p.ID env1).state.ID env2).result =
      .ok (hashIdentifiers env2.identifiers p.salt p.formatMode) := by
  simp [Provider.ID, hc, he1, hi1, he2, hi2]

/-- Witness for C4: first pass yields no identifiers, retry succeeds. -/
theorem provider_id_no_identifiers_non_caching_witness :
    ((⟨"s", .format32, "", none⟩ : Provider).ID ⟨none, [], emptyDiag⟩).result =
      .error .noIdentifiers ∧
    ((⟨"s", .format32, "", none⟩ : Provider).ID ⟨none, [], emptyDiag⟩).state.cachedID = "" ∧
    ((⟨"s", .format32, "", none⟩ : Provider).ID ⟨none, [], emptyDiag⟩).state.diagnostics =
      some emptyDiag ∧
    ((((⟨"s", .format32, "", none⟩ : Provider).ID ⟨none, [], emptyDiag⟩).state.ID
        ⟨none, ["disk:D1"], emptyDiag⟩).collectorInvoked = true) ∧
    ((((⟨"s", .format32, "", none⟩ : Provider).ID ⟨none, [], emptyDiag⟩).state.ID
        ⟨none, ["disk:D1"], emptyDiag⟩).result =
      .ok (hashIdentifiers ["disk:D1"] "s" .format32)) :=
  provider_id_no_identifiers_non_caching ⟨"s", .format32, "", none⟩ ⟨none, [], emptyDiag⟩
    ⟨none, ["disk:D1"], emptyDiag⟩ rfl rfl rfl rfl (by simp)

/-- C8 counterexample: a producer returning an empty string among its
values has that empty value appended as the bare prefix "mac:",
contradicting the claim that empty values are not appended. -/
theorem appendIdentifiersIfValid_appends_empty_value :
    (appendIdentifiersIfValid [] (.ok ["", "DEADBEEF"]) "mac:" emptyDiag ComponentMAC).1 =
      ["mac:", "mac:DEADBEEF"] ∧
    "mac:" ∈ (appendIdentifiersIfValid [] (.ok ["", "DEADBEEF"]) "mac:" emptyDiag ComponentMAC).1 := by
  constructor <;> decide

/-- C8 as amended: a producer error or a zero-length list records a
component-scoped failure ("no values" in the latter case) and leaves the
identifier list unchanged; a non-empty list has every value — including
empty strings — prefixed and appended in the order produced. -/
theorem appendIdentifiersIfValid_contract (identifiers : List String) (pfx : String)
    (diag : DiagnosticInfo) (component : String) :
    (∀ e : GoErr, appendIdentifiersIfValid identifiers (.error e) pfx diag component =
      (identifiers, diag.addError component (.componentError component e))) ∧
    appendIdentifiersIfValid identifiers (.ok []) pfx diag component =
      (identifiers, diag.addError component (.componentError component .noValues)) ∧
    (∀ (v : String) (vs : List String),
      appendIdentifiersIfValid identifiers (.ok (v :: vs)) pfx diag component =
        (identifiers ++ (v :: vs).map (fun value => pfx ++ value),
          diag.addCollected component)) := by
  refine ⟨fun e => rfl, rfl, fun v vs => ?_⟩
  simp [appendIdentifiersIfValid]

theorem addUnique_mem (s : String) (acc l : List String) :
    s ∈ addUnique acc l ↔ s ∈ acc ∨ s ∈ l := by
  induction l generalizing acc with
  | nil => simp [addUnique]
  | cons a rest ih =>
      simp only [addUnique]
      by_cases h : a ∈ acc
      · rw [if_pos h, ih]
        simp only [List.mem_cons]
        constructor
        · rintro (hs | hs)
          · exact Or.inl hs
          · exact Or.inr (Or.inr hs)
        · rintro (hs | hs | hs)
          · exact Or.inl hs
          · exact Or.inl (hs ▸ h)
          · exact Or.inr hs
      · rw [if_neg h, ih]
        simp only [List.mem_append, List.mem_singleton, List.mem_cons]
        tauto

theorem addUnique_nodup (acc l : List String) (h : acc.Nodup) : (addUnique acc l).Nodup := by
  induction l generalizing acc with
  | nil => exact h
  | cons a rest ih =>
      simp only [addUnique]
      by_cases ha : a ∈ acc
      · rw [if_pos ha]
        exact ih acc h
      · rw [if_neg ha]
        apply ih
        simp [List.nodup_append, h, ha]

theorem storageNamesAux_mem (s : String) (acc : List String) (entries : List SpStorageEntry) :
    s ∈ storageNamesAux acc entries ↔
      s ∈ acc ∨ ∃ e ∈ entries, e.deviceName = s ∧ e.deviceName ≠ "" ∧ e.isInternal = "yes" := by
  induction entries generalizing acc with
  | nil => simp [storageNamesAux]
  | cons e rest ih =>
      simp only [storageNamesAux]
      by_cases h1 : e.deviceName = ""
      · rw [if_pos h1, ih]
        simp only [List.mem_cons]
        constructor
        · rintro (hs | ⟨e', he', hp⟩)
          · exact Or.inl hs
          · exact Or.inr ⟨e', Or.inr he', hp⟩
        · rintro (hs | ⟨e', (rfl | he'), hp⟩)
          · exact Or.inl hs
          · exact absurd h1 hp.2.1
          · exact Or.inr ⟨e', he', hp⟩
      · rw [if_neg h1]
        by_cases h2 : e.isInternal ≠ "yes"
        · rw [if_pos h2, ih]
          simp only [List.mem_cons]
          constructor
          · rintro (hs | ⟨e', he', hp⟩)
            · exact Or.inl hs
            · exact Or.inr ⟨e', Or.inr he', hp⟩
          · rintro (hs | ⟨e', (rfl | he'), hp⟩)
            · exact Or.inl hs
            · exact absurd hp.2.2 h2
            · exact Or.inr ⟨e', he', hp⟩
        · rw [if_neg h2]
          rw [not_ne_iff] at h2
          by_cases h3 : e.deviceName ∈ acc
          · rw [if_pos h3, ih]
            simp only [List.mem_cons]
            constructor
            · rintro (hs | ⟨e', he', hp⟩)
              · exact Or.inl hs
              · exact Or.inr ⟨e', Or.inr he', hp⟩
            · rintro (hs | ⟨e', (rfl | he'), hp⟩)
              · exact Or.inl hs
              · exact Or.inl (hp.1 ▸ h3)
              · exact Or.inr ⟨e', he', hp⟩
          · rw [if_neg h3, ih]
            constructor
            · rintro (hs | ⟨e', he', hp⟩)
              · rcases List.mem_append.mp hs with h | h
                · exact Or.inl h
                · exact Or.inr ⟨e, List.mem_cons_self e rest,
                    (List.mem_singleton.mp h).symm, h1, h2⟩
              · exact Or.inr ⟨e', List.mem_cons_of_mem e he', hp⟩
            · rintro (hs | ⟨e', he', hp⟩)
              · exact Or.inl (List.mem_append.mpr (Or.inl hs))
              · rcases List.mem_cons.mp he' with rfl | hmem
                · exact Or.inl (List.mem_append.mpr
                    (Or.inr (List.mem_singleton.mpr hp.1.symm)))
                · exact Or.inr ⟨e', hmem, hp⟩

theorem storageNamesAux_nodup (acc : List String) (entries : List SpStorageEntry)
    (h : acc.Nodup) : (storageNamesAux acc entries).Nodup := by
  induction entries generalizing acc with
  | nil => exact h
  | cons e rest ih =>
      simp only [storageNamesAux]
      by_cases h1 : e.deviceName = ""
      · rw [if_pos h1]
        exact ih acc h
      · rw [if_neg h1]
        by_cases h2 : e.isInternal ≠ "yes"
        · rw [if_pos h2]
          exact ih acc h
        · rw [if_neg h2]
          by_cases h3 : e.deviceName ∈ acc
          · rw [if_pos h3]
            exact ih acc h
          · rw [if_neg h3]
            apply ih
            simp [List.nodup_append, h, h3]

/-- C9: overlapping disk serials from the two Linux acquisition methods
are merged with each distinct serial kept exactly once (the result has
no duplicates and contains exactly the serials of the successful
sources); the macOS storage parser likewise returns each internal disk
device name exactly once. -/
theorem disk_serials_dedup :
    (∀ lsblkRes sysRes : Except GoErr (List String),
      (linuxDiskSerials lsblkRes sysRes).Nodup ∧
      ∀ s, s ∈ linuxDiskSerials lsblkRes sysRes ↔
        s ∈ sourceValues lsblkRes ∨ s ∈ sourceValues sysRes) ∧
    (∀ entries : List SpStorageEntry,
      (storageDiskNames entries).Nodup ∧
      ∀ s, s ∈ storageDiskNames entries ↔
        ∃ e ∈ entries, e.deviceName = s ∧ e.deviceName ≠ "" ∧ e.isInternal = "yes") := by
  constructor
  · intro lsblkRes sysRes
    constructor
    · cases lsblkRes with
      | ok l1 =>
          cases sysRes with
          | ok l2 =>
              exact addUnique_nodup _ _ (addUnique_nodup _ _ List.nodup_nil)
          | error e =>
              exact addUnique_nodup _ _ List.nodup_nil
      | error e =>
          cases sysRes with
          | ok l2 => exact addUnique_nodup _ _ List.nodup_nil
          | error e2 => exact List.nodup_nil
    · intro s
      cases lsblkRes with
      | ok l1 =>
          cases sysRes with
          | ok l2 => simp [linuxDiskSerials, sourceValues, addUnique_mem]
          | error e => simp [linuxDiskSerials, sourceValues, addUnique_mem]
      | error e =>
          cases sysRes with
          | ok l2 => simp [linuxDiskSerials, sourceValues, addUnique_mem]
          | error e2 => simp [linuxDiskSerials, sourceValues]
  · intro entries
    exact ⟨storageNamesAux_nodup [] entries List.nodup_nil,
      fun s => by simpa using storageNamesAux_mem s [] entries⟩

theorem appendIdentifierIfValid_sizes (identifiers : List String) (getValue : Except GoErr String)
    (pfx : String) (diag : DiagnosticInfo) (component : String) :
    (appendIdentifierIfValid identifiers getValue pfx diag component).1.length ≤
      identifiers.length + 1 ∧
    identifiers.length ≤
      (appendIdentifierIfValid identifiers getValue pfx diag component).1.length ∧
    (appendIdentifierIfValid identifiers getValue pfx diag component).2.errors.length +
      (appendIdentifierIfValid identifiers getValue pfx diag component).2.collected.length =
      diag.errors.length + diag.collected.length + 1 := by
  cases getValue with
  | error e =>
      simp [appendIdentifierIfValid, DiagnosticInfo.addError]
      omega
  | ok v =>
      by_cases hv : v = "" <;>
        simp [appendIdentifierIfValid, hv, DiagnosticInfo.addError,
          DiagnosticInfo.addCollected] <;> omega

/-- C10: on Linux, enabling the single SystemUUID signal performs two
collection attempts — the DMI product UUID under prefix "uuid:" and
component "uuid", then the systemd machine-id under prefix "machine:"
and component "machine-id" — contributing up to two identifiers and
exactly two diagnostic entries. -/
theorem linux_uuid_flag_two_attempts (env : LinuxEnv) :
    (∀ u m, env.systemUUID = .ok u → u ≠ "" → env.machineId = .ok m → m ≠ "" →
      linuxCollectIdentifiers uuidOnlyConfig env =
        (["uuid:" ++ u, "machine:" ++ m],
          ⟨[], [ComponentSystemUUID, ComponentMachineID]⟩)) ∧
    (linuxCollectIdentifiers uuidOnlyConfig env).1.length ≤ 2 ∧
    (linuxCollectIdentifiers uuidOnlyConfig env).2.errors.length +
      (linuxCollectIdentifiers uuidOnlyConfig env).2.collected.length = 2 := by
  have hstep := appendIdentifierIfValid_sizes [] env.systemUUID "uuid:" emptyDiag
    ComponentSystemUUID
  have hstep2 := appendIdentifierIfValid_sizes
    (appendIdentifierIfValid [] env.systemUUID "uuid:" emptyDiag ComponentSystemUUID).1
    env.machineId "machine:"
    (appendIdentifierIfValid [] env.systemUUID "uuid:" emptyDiag ComponentSystemUUID).2
    ComponentMachineID
  refine ⟨?_, ?_, ?_⟩
  · intro u m h1 h2 h3 h4
    simp [linuxCollectIdentifiers, uuidOnlyConfig, appendIdentifierIfValid, h1, h2, h3, h4,
      emptyDiag, DiagnosticInfo.addCollected]
  · simp only [linuxCollectIdentifiers, uuidOnlyConfig]
    simp only [Bool.false_eq_true, if_false, if_true]
    have ha : ([] : List String).length = 0 := rfl
    omega
  · simp only [linuxCollectIdentifiers, uuidOnlyConfig]
    simp only [Bool.false_eq_true, if_false, if_true]
    have he0 : emptyDiag.errors.length = 0 := rfl
    have hc0 : emptyDiag.collected.length = 0 := rfl
    omega

/-- Witness for C10 at a concrete environment where both attempts
succeed. -/
theorem linux_uuid_flag_two_attempts_witness :
    linuxCollectIdentifiers uuidOnlyConfig
        ⟨.error .notFound, .ok "ABC-123", .ok "deadbeef", .error .notFound,
          .ok [], .ok []⟩ =
      (["uuid:ABC-123", "machine:deadbeef"],
        ⟨[], [ComponentSystemUUID, ComponentMachineID]⟩) :=
  (linux_uuid_flag_two_attempts
      ⟨.error .notFound, .ok "ABC-123", .ok "deadbeef", .error .notFound, .ok [], .ok []⟩).1
    "ABC-123" "deadbeef" rfl (by decide) rfl (by decide)

theorem readFirstValidFromLocations_ok_valid (files : List (Option String))
    (validator : String → Bool) (v : String)
    (h : readFirstValidFromLocations files validator = .ok v) : validator v = true := by
  induction files with
  | nil => exact absurd h (by simp [readFirstValidFromLocations])
  | cons f rest ih =>
      cases f with
      | none => exact ih h
      | some data =>
          by_cases hv : validator (trimSpace data) = true
          · rw [readFirstValidFromLocations, if_pos hv] at h
            cases h
            exact hv
          · rw [readFirstValidFromLocations, if_neg hv] at h
            exact ih h

/-- C7 counterexample: the Windows wmic system-UUID path accepts the
all-zero UUID — `parseWmicValue` returns it as a valid value, the full
wmic-then-PowerShell chain returns it, and the aggregator then appends
it as the "uuid:"-prefixed identifier — contradicting the claim that
every platform's system-UUID acquisition path rejects the all-zero
UUID. -/
theorem windows_accepts_zero_uuid :
    parseWmicValue "UUID=00000000-0000-0000-0000-000000000000" "UUID=" = .ok zeroUUID ∧
    windowsSystemUUID (.ok "UUID=00000000-0000-0000-0000-000000000000") (.error .notFound) =
      .ok zeroUUID ∧
    windowsSystemUUIDViaPowerShell (.ok "00000000-0000-0000-0000-000000000000") =
      .ok zeroUUID ∧
    (appendIdentifierIfValid [] (.ok zeroUUID) "uuid:" emptyDiag ComponentSystemUUID).1 =
      ["uuid:00000000-0000-0000-0000-000000000000"] := by
  refine ⟨by decide, by decide, by decide, by decide⟩

/-- C7 as amended: only the Linux DMI path validates against the
all-zero UUID — `isValidUUID` rejects it, so `linuxSystemUUID` can never
return it whatever the file contents are — while the Windows wmic and
PowerShell system-UUID parsers accept any non-empty, non-placeholder
value, the all-zero UUID included. -/
theorem zero_uuid_rejected_on_linux_only :
    isValidUUID zeroUUID = false ∧
    isValidUUID "" = false ∧
    (∀ files v, linuxSystemUUID files = .ok v → v ≠ zeroUUID) ∧
    parseWmicValue "UUID=00000000-0000-0000-0000-000000000000" "UUID=" = .ok zeroUUID ∧
    parsePowerShellValue "00000000-0000-0000-0000-000000000000" = .ok zeroUUID := by
  refine ⟨by decide, by decide, ?_, by decide, by decide⟩
  intro files v h hv
  have hvalid := readFirstValidFromLocations_ok_valid files isValidUUID v h
  rw [hv] at hvalid
  exact absurd hvalid (by decide)

/-- Witness for C7 (amended): the Linux reader skips an all-zero
product_uuid file and returns the next valid candidate. -/
theorem zero_uuid_rejected_on_linux_only_witness :
    ("1a2b3c4d-0000-0000-0000-000000000001" : String) ≠ zeroUUID :=
  (zero_uuid_rejected_on_linux_only).2.2.1
    [some "00000000-0000-0000-0000-000000000000", some "1a2b3c4d-0000-0000-0000-000000000001"]
    "1a2b3c4d-0000-0000-0000-000000000001" (by decide)

theorem encodeOptChar_injective : Function.Injective encodeOptChar := by
  intro a b h
  cases a with
  | none =>
      cases b with
      | none => rfl
      | some c => exact absurd (congrArg Fin.val h) (by simp [encodeOptChar])
  | some c1 =>
      cases b with
      | none => exact absurd (congrArg Fin.val h) (by simp [encodeOptChar])
      | some c2 =>
          have hv := congrArg Fin.val h
          simp only [encodeOptChar, Nat.add_right_cancel_iff] at hv
          have hval : c1.val = c2.val := by
            apply UInt32.ext
            simpa [Char.toNat] using hv
          exact congrArg Option.some (Char.eq_of_val_eq hval)

/-- C5 counterexample: the claim that any two distinct non-empty salts
always produce distinct fingerprints is false — the infinitely many
distinct salts map into the finite set of fixed-length hex fingerprints,
so by pigeonhole some two distinct non-empty salts collide (no explicit
colliding pair is computable, which is exactly why the property cannot
hold universally yet holds for every practically testable pair). -/
theorem salt_injectivity_fails :
    ¬ (∀ (identifiers : List String) (mode : FormatMode) (s1 s2 : String),
        s1 ≠ "" → s2 ≠ "" → s1 ≠ s2 →
        hashIdentifiers identifiers s1 mode ≠ hashIdentifiers identifiers s2 mode) := by
  intro hclaim
  have hsaltN_ne : ∀ n : Nat, saltN n ≠ "" := by
    intro n h
    have hd := congrArg String.data h
    simp [saltN] at hd
  have hsaltN_inj : ∀ n m : Nat, saltN n = saltN m → n = m := by
    intro n m h
    have hd := congrArg String.data h
    simp only [saltN, string_data_mk, List.cons.injEq, true_and] at hd
    have hlen := congrArg List.length hd
    simpa using hlen
  obtain ⟨n, m, hnm, heq⟩ := Finite.exists_ne_map_eq_of_infinite
    (fun (n : Nat) (i : Fin 33) =>
      encodeOptChar ((hashIdentifiers [] (saltN n) .format32).data.get? i))
  have hlen : ∀ k : Nat, (hashIdentifiers [] (saltN k) .format32).data.length = 32 := fun k =>
    hashIdentifiers_length [] (saltN k) .format32
  have hdata : (hashIdentifiers [] (saltN n) .format32).data =
      (hashIdentifiers [] (saltN m) .format32).data := by
    apply List.ext_get?'
    intro k hk
    rw [hlen, hlen] at hk
    have hk33 : k < 33 := by omega
    exact encodeOptChar_injective (congrFun heq ⟨k, hk33⟩)
  exact hclaim [] .format32 (saltN n) (saltN m) (hsaltN_ne n) (hsaltN_ne m)
    (fun h => hnm (hsaltN_inj n m h)) (String.ext hdata)

/-- C5 as amended: for a fixed identifier set, two distinct non-empty
salts produce two distinct hash inputs (the salted combined strings fed
to SHA-256), and the empty-salt hash input differs from every non-empty
salt's hash input; the fingerprints therefore differ unless SHA-256
itself collides on the two distinct inputs. -/
theorem salt_sensitivity_distinct_preimages (identifiers : List String) (s1 s2 : String)
    (h1 : s1 ≠ "") (h2 : s2 ≠ "") (hne : s1 ≠ s2) :
    saltedCombined identifiers s1 ≠ saltedCombined identifiers s2 ∧
    saltedCombined identifiers "" ≠ saltedCombined identifiers s1 := by
  unfold saltedCombined
  rw [if_pos h1, if_pos h2, if_neg (by simp)]
  constructor
  · intro heq
    apply hne
    have hd := congrArg String.data heq
    rw [String.data_append, String.data_append, String.data_append, String.data_append] at hd
    have hc1 := List.append_cancel_right hd
    have hc2 := List.append_cancel_right hc1
    exact String.ext hc2
  · intro heq
    have hd := congrArg String.data heq
    rw [String.data_append, String.data_append] at hd
    have hlen := congrArg List.length hd
    simp only [List.length_append] at hlen
    have hs1 : s1.data ≠ [] := fun hh => h1 (String.ext hh)
    have hpos : 0 < s1.data.length := List.length_pos.mpr hs1
    have hbar : ("|" : String).data.length = 1 := rfl
    omega

/-- Witness for C5 (amended): two concrete application salts. -/
theorem salt_sensitivity_distinct_preimages_witness :
    saltedCombined ["cpu:x"] "app1" ≠ saltedCombined ["cpu:x"] "app2" ∧
    saltedCombined ["cpu:x"] "" ≠ saltedCombined ["cpu:x"] "app1" :=
  salt_sensitivity_distinct_preimages ["cpu:x"] "app1" "app2" (by decide) (by decide) (by decide)
